import Mathlib

/-!
Verification development for the data layer of the BoM transfer dashboard.

The TypeScript source is shallowly embedded: raw remote records are
association data with optional string fields, JS number coercions
(`parseFloat(x) || 0`, `parseInt(x) || 0`) are modelled over `Rat`/`Int`,
JS string falsiness (`x || d`) is modelled explicitly, and the derived-view
computations (status partition, kanban rollup, search filter, multi-key
sort, month bucketing, decline trajectories) are translated function by
function from `src/hooks/useBomData.ts`, `src/components/SummaryCards.tsx`
and the dashboard page.
-/

namespace ChinaTransfer

/-- Value of a digit string, most significant first (used by the numeric
coercion model). -/
def digitsVal (ds : List Char) : Nat :=
  ds.foldl (fun acc c => acc * 10 + (c.toNat - 48)) 0

/-- Models the JS `parseFloat` builtin on the common decimal forms: an
optional sign, a nonempty digit run, optionally followed by a point and a
fraction digit run; any other shape yields `none` (NaN). -/
def jsParseFloat (s : String) : Option Rat :=
  let cs := s.toList
  let signed : Bool × List Char :=
    match cs with
    | '-' :: rest => (true, rest)
    | '+' :: rest => (false, rest)
    | _ => (false, cs)
  let ip := signed.2.takeWhile Char.isDigit
  let rest := signed.2.dropWhile Char.isDigit
  if ip.isEmpty then none
  else
    let intVal : Rat := (digitsVal ip : Nat)
    let fracVal : Rat :=
      match rest with
      | '.' :: tail =>
        let fd := tail.takeWhile Char.isDigit
        ((digitsVal fd : Nat) : Rat) / ((10 : Rat) ^ fd.length)
      | _ => 0
    let v := intVal + fracVal
    some (if signed.1 then -v else v)

/-- Models the JS `parseInt` builtin on the common decimal forms: an
optional sign followed by a nonempty leading digit run; any other shape
yields `none` (NaN). -/
def jsParseInt (s : String) : Option Int :=
  let cs := s.toList
  let signed : Bool × List Char :=
    match cs with
    | '-' :: rest => (true, rest)
    | '+' :: rest => (false, rest)
    | _ => (false, cs)
  let ds := signed.2.takeWhile Char.isDigit
  if ds.isEmpty then none
  else
    let v : Int := (digitsVal ds : Nat)
    some (if signed.1 then -v else v)

/-- Models `parseFloat(x) || 0` on an optional raw field (absent field or
NaN coerces to 0; a parsed 0 also yields 0, as in JS). -/
def toNumF : Option String → Rat
  | none => 0
  | some s => (jsParseFloat s).getD 0

/-- Models `parseInt(x) || 0` on an optional raw field. -/
def toNumI : Option String → Int
  | none => 0
  | some s => (jsParseInt s).getD 0

/-- Models the JS idiom that replaces a falsy optional string field with
the empty string (absent and empty both give the empty string). -/
def strOrEmpty : Option String → String
  | none => ""
  | some s => s

/-- Models the JS falsy fallback applied to the raw status field: absent
and empty (the JS falsy strings) default to "Not Start", any other string
passes through unchanged. -/
def statusOrNotStart : Option String → String
  | none => "Not Start"
  | some s => if s = "" then "Not Start" else s

/-- Models `imageUrl || undefined` (empty string is falsy). -/
def jsOrUndef : Option String → Option String
  | none => none
  | some s => if s = "" then none else some s

/-- A raw record as delivered by the remote store: every wire field is
optional.  A `Value` field may be present on the wire; the normalizer
never reads it. -/
structure RawRecord where
  Description_EN : Option String
  Kanban_Flag : Option String
  Latest_Component_Date : Option String
  Standard_Price : Option String
  Total_Qty : Option String
  Value : Option String
  Transfer_Status : Option String
  Status_UpdatedAt : Option String
  Expected_Completion : Option String
  NotToTransferReason : Option String
  Brand : Option String
deriving DecidableEq, Repr

/-- The normalized domain entity (from `src/types/bom.ts`): optional wire
fields become concrete values, numeric fields are coerced, `Value` is
recomputed. -/
structure BomItem where
  Component_Material : String
  Description_EN : String
  Kanban_Flag : String
  Latest_Component_Date : String
  Standard_Price : Rat
  Total_Qty : Int
  Value : Rat
  Transfer_Status : Option String
  Status_UpdatedAt : Option String
  imageUrl : Option String
  Expected_Completion : Option String
  Planned_Start : Option String
  NotToTransferReason : Option String
  Brand : Option String
deriving DecidableEq, Repr

/-- The per-key normalization step of `useBomData` (src/hooks/useBomData.ts,
the callback body building each `BomItem`).  `imageUrl` is the already
resolved image lookup result for this key. -/
def normalizeItem (key : String) (item : RawRecord) (imageUrl : Option String) : BomItem :=
  { Component_Material := key
    Description_EN := strOrEmpty item.Description_EN
    Kanban_Flag := strOrEmpty item.Kanban_Flag
    Latest_Component_Date := strOrEmpty item.Latest_Component_Date
    Standard_Price := toNumF item.Standard_Price
    Total_Qty := toNumI item.Total_Qty
    Value := toNumF item.Standard_Price * ((toNumI item.Total_Qty : Int) : Rat)
    Transfer_Status := some (statusOrNotStart item.Transfer_Status)
    Status_UpdatedAt := some (strOrEmpty item.Status_UpdatedAt)
    imageUrl := jsOrUndef imageUrl
    Expected_Completion := some (strOrEmpty item.Expected_Completion)
    Planned_Start := none
    NotToTransferReason := some (strOrEmpty item.NotToTransferReason)
    Brand := some (strOrEmpty item.Brand) }

/-- Normalization of a whole raw snapshot (the `Object.keys(data).map`
loop), with `img` the image resolution results. -/
def normalizeAll (data : List (String × RawRecord)) (img : String → Option String) : List BomItem :=
  data.map (fun kv => normalizeItem kv.1 kv.2 (img kv.1))

/-- The five `TransferStatus` variants of `src/types/bom.ts`. -/
def knownStatuses : List String :=
  ["Not Start", "In Progress", "Finished", "Temporary Usage", "Not to Transfer"]

/-- A raw record whose only populated field is an unrecognized
`Transfer_Status` string. -/
def garbageRaw : RawRecord :=
  { Description_EN := none, Kanban_Flag := none, Latest_Component_Date := none
    Standard_Price := none, Total_Qty := none, Value := none
    Transfer_Status := some "garbage", Status_UpdatedAt := none
    Expected_Completion := none, NotToTransferReason := none, Brand := none }

/-- A raw record with every field absent. -/
def emptyRaw : RawRecord :=
  { Description_EN := none, Kanban_Flag := none, Latest_Component_Date := none
    Standard_Price := none, Total_Qty := none, Value := none
    Transfer_Status := none, Status_UpdatedAt := none
    Expected_Completion := none, NotToTransferReason := none, Brand := none }

/-- A raw record carrying the numeric example of the spec (`Standard_Price`
"12.5", `Total_Qty` "4"). -/
def priceQtyRaw : RawRecord :=
  { Description_EN := none, Kanban_Flag := none, Latest_Component_Date := none
    Standard_Price := some "12.5", Total_Qty := some "4", Value := none
    Transfer_Status := none, Status_UpdatedAt := none
    Expected_Completion := none, NotToTransferReason := none, Brand := none }

/-! ### Live Collection Store mutations -/

/-- Outcome of the single remote partial write performed by a mutation
(the adapter either resolves or rejects with a transport error). -/
inductive WriteResult where
  | success
  | failure (message : String)
deriving DecidableEq, Repr

/-- Result of `updateStatus` (src/hooks/useBomData.ts lines 65-78): the
`try`/`catch` returns `true` when the adapter write resolves and `false`
when it rejects; it never rethrows. -/
def updateStatusResult : WriteResult → Bool
  | .success => true
  | .failure _ => false

/-- Result of `updateExpectedCompletion` (src/hooks/useBomData.ts lines
80-92), same `try`/`catch` shape. -/
def updateExpectedCompletionResult : WriteResult → Bool
  | .success => true
  | .failure _ => false

/-- Result of `updateNotToTransferDetails` (src/hooks/useBomData.ts lines
94-111), same `try`/`catch` shape. -/
def updateNotToTransferDetailsResult : WriteResult → Bool
  | .success => true
  | .failure _ => false

/-- Modelled from the spec: the definition of `updatePlannedStart` is not
present under src (the hook file returns only three mutations, while
`Index.tsx` and the dashboard page destructure and call
`updatePlannedStart`); spec section 4.3 states
`updatePlannedStart(id, isoDateOrNull) -> Promise<boolean>` resolves `true`
on success and `false` on any transport failure, never throwing, like the
other three mutations. -/
def updatePlannedStartResult : WriteResult → Bool
  | .success => true
  | .failure _ => false

/-- One entry of the `updates` object passed to the single adapter
`update(ref(database), updates)` call: the dotted path
`bom_summary/<id>/<field>` split into its components, with `none`
standing for a JS `null` value. -/
structure FieldWrite where
  id : String
  field : String
  value : Option String
deriving DecidableEq, Repr

/-- Models `dateISO || null` (empty string is falsy, so it also clears). -/
def jsOrNull : Option String → Option String
  | none => none
  | some s => if s = "" then none else some s

/-- The four mutation invocations of the Live Collection Store with their
arguments.  The first three are from src/hooks/useBomData.ts; the
`plannedStart` write group is modelled from the spec (section 3
"Lifecycle": `plannedStart` alone), since its definition is not under
src. -/
inductive Mutation where
  | status (id newStatus now : String)
  | expectedCompletion (id : String) (dateISO : Option String)
  | notToTransferDetails (id reason brand : String)
  | plannedStart (id : String) (dateISO : Option String)
deriving DecidableEq, Repr

/-- The adapter calls a mutation performs: each mutation builds one
`updates` object and passes it to exactly one `update` call, so the outer
list always has one element whose entries transcribe the `updates`
object of the source. -/
def mutationCalls : Mutation → List (List FieldWrite)
  | .status id newStatus now =>
      [[{ id := id, field := "Transfer_Status", value := some newStatus },
        { id := id, field := "Status_UpdatedAt", value := some now }]]
  | .expectedCompletion id dateISO =>
      [[{ id := id, field := "Expected_Completion", value := jsOrNull dateISO }]]
  | .notToTransferDetails id reason brand =>
      [[{ id := id, field := "NotToTransferReason", value := some reason },
        { id := id, field := "Brand", value := some brand }]]
  | .plannedStart id dateISO =>
      [[{ id := id, field := "Planned_Start", value := jsOrNull dateISO }]]

/-- All field names a mutation writes, across all of its adapter calls. -/
def mutationFields (m : Mutation) : List String :=
  (mutationCalls m).flatten.map (fun w => w.field)

/-! ### SummaryCards rollup (src/components/SummaryCards.tsx) -/

/-- Lowercasing as done by JS `toLowerCase`, at the character-list level. -/
def jsToLower (s : String) : List Char :=
  s.toList.map Char.toLower

/-- JS `trim`: strip whitespace from both ends. -/
def trimChars (cs : List Char) : List Char :=
  (((cs.dropWhile Char.isWhitespace).reverse).dropWhile Char.isWhitespace).reverse

/-- The four status buckets actually keyed in the `statusTotals` record
of `SummaryCards` ("Temporary Usage" is not among them). -/
inductive CardStatus where
  | notStart
  | inProgress
  | finished
  | notToTransfer
deriving DecidableEq, Repr

/-- `getStatus` of SummaryCards.tsx: lowercase the raw status (defaulting
an absent one to "Not Start") and match a fixed set of spellings; anything
else falls back to "Not Start". -/
def getStatus (item : BomItem) : CardStatus :=
  let norm := jsToLower (item.Transfer_Status.getD "Not Start")
  if norm = "not started".toList then .notStart
  else if norm = "in progress".toList then .inProgress
  else if norm = "finished".toList ∨ norm = "completed".toList then .finished
  else if norm = "not to transfer".toList ∨ norm = "not-transfer".toList
          ∨ norm = "no transfer".toList then .notToTransfer
  else .notStart

/-- The bucket keys of `statusTotals`, in declaration order. -/
def cardStatuses : List CardStatus :=
  [.notStart, .inProgress, .finished, .notToTransfer]

/-- Per-bucket parts count of `statusTotals`. -/
def statusCount (items : List BomItem) (st : CardStatus) : Nat :=
  (items.filter (fun i => decide (getStatus i = st))).length

/-- Per-bucket value total of `statusTotals`. -/
def statusValue (items : List BomItem) (st : CardStatus) : Rat :=
  ((items.filter (fun i => decide (getStatus i = st))).map (fun i => i.Value)).sum

/-- Per-bucket quantity total of `statusTotals`. -/
def statusQty (items : List BomItem) (st : CardStatus) : Int :=
  ((items.filter (fun i => decide (getStatus i = st))).map (fun i => i.Total_Qty)).sum

/-- `isKanban` of SummaryCards.tsx: lowercase, trim, and compare against
the five accepted tokens. -/
def isKanban (item : BomItem) : Bool :=
  let flag := trimChars (jsToLower item.Kanban_Flag)
  flag == "kanban".toList || flag == "y".toList || flag == "yes".toList
    || flag == "1".toList || flag == "true".toList

/-- `kanbanItems` of SummaryCards.tsx. -/
def kanbanItems (items : List BomItem) : List BomItem :=
  items.filter isKanban

/-- `kanbanParts` of SummaryCards.tsx. -/
def kanbanParts (items : List BomItem) : Nat :=
  (kanbanItems items).length

/-! ### Dashboard status partition (ProfessionalDashboard) -/

/-- Models the JS falsy fallback of the raw status field to "Not Start"
as used by the dashboard filters. -/
def statusOrDefault (i : BomItem) : String :=
  match i.Transfer_Status with
  | none => "Not Start"
  | some s => if s = "" then "Not Start" else s

/-- Count of items whose (defaulted) status equals one exact string, the
shape of the dashboard filters `completedItems` / `planItems` /
`currentBomItems` / `remainingItems` filters. -/
def countWithStatus (items : List BomItem) (s : String) : Nat :=
  (items.filter (fun i => decide (statusOrDefault i = s))).length

/-- `totalPartsBaseline` of the dashboard: the sum of the four filtered
group sizes. -/
def totalPartsBaseline (items : List BomItem) : Nat :=
  countWithStatus items "Not to Transfer" + countWithStatus items "Not Start"
    + countWithStatus items "In Progress" + countWithStatus items "Finished"

/-! ### Month bucketing and decline trajectories (ProfessionalDashboard)

Date parsing (date-fns `parseISO` / `startOfMonth`) is abstracted: each
item contributes the numeric key of its month bucket, or `none` when its
date fails to parse (such items are skipped by the `forEach`, exactly as
in the source). -/

/-- One `forEach` step of the month-map construction: bump the bucket for
`key`, creating it at the end when absent (insertion order, like a JS
`Map`). -/
def addEvent (acc : List (Int × Nat)) (key : Int) : List (Int × Nat) :=
  match acc with
  | [] => [(key, 1)]
  | (k, n) :: rest => if k = key then (k, n + 1) :: rest else (k, n) :: addEvent rest key

instance bucketLeDec : DecidableRel (fun a b : Int × Nat => a.1 ≤ b.1) :=
  fun a b => inferInstanceAs (Decidable (a.1 ≤ b.1))

/-- The populated month buckets, sorted ascending by month key
(`Array.from(monthMap.values()).sort((a, b) => a.sortValue - b.sortValue)`). -/
def monthBuckets (dates : List (Option Int)) : List (Int × Nat) :=
  List.insertionSort (fun a b : Int × Nat => a.1 ≤ b.1) ((dates.filterMap id).foldl addEvent [])

/-- The decline loop of `completedDecline`: each row is
`(remaining, remainingAfter)` with
`remainingAfter = Math.max(remaining - completed, 0)`. -/
def declineLoop (remaining : Int) : List Int → List (Int × Int)
  | [] => []
  | completed :: rest =>
    let remainingAfter := max (remaining - completed) 0
    (remaining, remainingAfter) :: declineLoop remainingAfter rest

/-- The loop of `plannedStartTrajectory`: each row is
`(plannedStarts, remaining)` with
`remaining = Math.max(remaining - starts, 0)`. -/
def trajectoryLoop (remaining : Int) : List Int → List (Int × Int)
  | [] => []
  | starts :: rest =>
    let remainingAfterStart := max (remaining - starts) 0
    (starts, remainingAfterStart) :: trajectoryLoop remainingAfterStart rest

/-- `completedDecline`: fold the decline over the populated month buckets
of the completed items; there is no synthetic fallback bucket in the
source. -/
def completedDecline (baseline : Int) (dates : List (Option Int)) : List (Int × Int) :=
  declineLoop baseline ((monthBuckets dates).map (fun entry => (entry.2 : Int)))

/-- `plannedStartTrajectory`: like `completedDecline` over the planned
start schedule, but an empty schedule is replaced by a single synthetic
current-month bucket with zero starts. -/
def plannedStartTrajectory (currentCount : Int) (dates : List (Option Int))
    (nowMonthKey : Int) : List (Int × Int) :=
  let schedule := monthBuckets dates
  let ordered := if schedule.isEmpty then [(nowMonthKey, 0)] else schedule
  trajectoryLoop currentCount (ordered.map (fun entry => (entry.2 : Int)))

/-! ### Search filter, kanban filter and multi-key sort
(`useFilteredAndSortedBom`, src/hooks/useBomData.ts lines 124-185) -/

/-- Decides whether `needle` occurs at the start of the character list. -/
def startsWithSeq : List Char → List Char → Bool
  | [], _ => true
  | _ :: _, [] => false
  | a :: as, b :: bs => a == b && startsWithSeq as bs

/-- Decides whether `needle` occurs contiguously anywhere in the
character list; models JS `String.includes`. -/
def containsSeq (needle : List Char) : List Char → Bool
  | [] => needle.isEmpty
  | b :: bs => startsWithSeq needle (b :: bs) || containsSeq needle bs

/-- The specification-side substring relation: `needle` occurs
contiguously inside `hay`. -/
def IsSubstringChars (needle hay : List Char) : Prop :=
  ∃ pre post, hay = pre ++ needle ++ post

/-- The predicate of the search filter: the (already lowercased) term is
included in the lowercased material number or the lowercased
description. -/
def searchMatches (term : List Char) (item : BomItem) : Bool :=
  containsSeq term (jsToLower item.Component_Material)
    || containsSeq term (jsToLower item.Description_EN)

/-- The search filter of `useFilteredAndSortedBom`: `if (searchTerm)`
guards the filter, so the empty (falsy) term leaves the list untouched. -/
def searchFilter (searchTerm : String) (items : List BomItem) : List BomItem :=
  if searchTerm = "" then items
  else items.filter (searchMatches (jsToLower searchTerm))

/-- The `KanbanFilter` union of src/types/bom.ts. -/
inductive KanbanFilter where
  | all
  | kanban
  | nonKanban
deriving DecidableEq, Repr

/-- The kanban filter of `useFilteredAndSortedBom`: the "kanban" branch
keeps items whose lowercased flag is exactly the string "kanban" (no
trim, no alternative tokens, unlike `isKanban` of SummaryCards). -/
def applyKanbanFilter (filter : KanbanFilter) (items : List BomItem) : List BomItem :=
  match filter with
  | .kanban => items.filter (fun item => jsToLower item.Kanban_Flag == "kanban".toList)
  | .nonKanban => items.filter (fun item => !(jsToLower item.Kanban_Flag == "kanban".toList))
  | .all => items

/-- The `SortField` union of src/types/bom.ts. -/
inductive SortField where
  | Value
  | Standard_Price
  | Total_Qty
  | Latest_Component_Date
deriving DecidableEq, Repr

/-- The `SortDirection` union of src/types/bom.ts. -/
inductive SortDirection where
  | asc
  | desc
deriving DecidableEq, Repr

/-- The sort key selected by the comparator switch; `dateMs` abstracts
`new Date(s).getTime()` for the date column. -/
def sortKeyOf (dateMs : String → Int) (field : SortField) (a : BomItem) : Rat :=
  match field with
  | .Value => a.Value
  | .Standard_Price => a.Standard_Price
  | .Total_Qty => (a.Total_Qty : Rat)
  | .Latest_Component_Date => ((dateMs a.Latest_Component_Date : Int) : Rat)

/-- The JS comparator of `useFilteredAndSortedBom` (-1 / 1 / 0 by
three-way comparison, direction-dependent). -/
def jsCompare (dateMs : String → Int) (field : SortField) (dir : SortDirection)
    (a b : BomItem) : Int :=
  let aValue := sortKeyOf dateMs field a
  let bValue := sortKeyOf dateMs field b
  match dir with
  | .asc => if aValue < bValue then -1 else if aValue > bValue then 1 else 0
  | .desc => if aValue > bValue then -1 else if aValue < bValue then 1 else 0

/-- The ordering induced by the comparator: `a` sorts no later than `b`
when the comparator does not return a positive number. -/
def sortLe (dateMs : String → Int) (field : SortField) (dir : SortDirection)
    (a b : BomItem) : Prop :=
  jsCompare dateMs field dir a b ≤ 0

instance sortLeDec (dateMs : String → Int) (field : SortField) (dir : SortDirection) :
    DecidableRel (sortLe dateMs field dir) :=
  fun a b => inferInstanceAs (Decidable (jsCompare dateMs field dir a b ≤ 0))

/-- The sort of `useFilteredAndSortedBom`.  ECMAScript 2019 requires
`Array.prototype.sort` to be stable, so it is modelled by the stable
insertion sort ordered by the translated comparator. -/
def sortBom (dateMs : String → Int) (field : SortField) (dir : SortDirection)
    (items : List BomItem) : List BomItem :=
  List.insertionSort (sortLe dateMs field dir) items

/-! ### Concrete items used by examples and counterexamples -/

/-- A blank item template. -/
def blankItem : BomItem :=
  { Component_Material := "", Description_EN := "", Kanban_Flag := ""
    Latest_Component_Date := "", Standard_Price := 0, Total_Qty := 0, Value := 0
    Transfer_Status := none, Status_UpdatedAt := none, imageUrl := none
    Expected_Completion := none, Planned_Start := none
    NotToTransferReason := none, Brand := none }

/-- An item whose status is the fifth variant, "Temporary Usage". -/
def tuItem : BomItem :=
  { blankItem with Component_Material := "TU-1", Transfer_Status := some "Temporary Usage" }

/-- An item flagged "Y" for kanban. -/
def itemY : BomItem :=
  { blankItem with Component_Material := "K-1", Kanban_Flag := "Y" }

/-- The search example item CAP-100 from the spec. -/
def capItem : BomItem :=
  { blankItem with Component_Material := "CAP-100" }

/-- The search example item RES-200 from the spec. -/
def resItem : BomItem :=
  { blankItem with Component_Material := "RES-200" }

/-- Two items with equal sort keys, for the stability witness. -/
def itemA : BomItem :=
  { blankItem with Component_Material := "A-1", Value := 5 }

/-- Second item with the same `Value` as `itemA`. -/
def itemB : BomItem :=
  { blankItem with Component_Material := "B-2", Value := 5 }

/-! ## Theorems -/

/-- C1 counterexample: a raw record whose `Transfer_Status` is the
unrecognized non-empty string "garbage" normalizes to "garbage" itself,
which is none of the five variants — refuting the claim that garbage
strings normalize to "Not Start". -/
theorem C1_counterexample :
    (normalizeItem "K" garbageRaw none).Transfer_Status = some "garbage"
      ∧ ∀ s ∈ knownStatuses, (normalizeItem "K" garbageRaw none).Transfer_Status ≠ some s := by
  constructor
  · rfl
  · decide

/-- C1 (amended): normalization sends an absent or empty raw
`Transfer_Status` to "Not Start", while any non-empty raw string (also an
unrecognized one) passes through unchanged; membership in the five
variants is therefore guaranteed only when the raw field is absent, empty,
or itself one of the five variants. -/
theorem C1_amended (key : String) (item : RawRecord) (u : Option String) :
    ((item.Transfer_Status = none ∨ item.Transfer_Status = some "") →
        (normalizeItem key item u).Transfer_Status = some "Not Start")
      ∧ (∀ s : String, item.Transfer_Status = some s → s ≠ "" →
        (normalizeItem key item u).Transfer_Status = some s) := by
  constructor
  · rintro (h | h) <;> simp [normalizeItem, statusOrNotStart, h]
  · intro s hs hne
    simp [normalizeItem, statusOrNotStart, hs, hne]

/-- C1 witness: the amended theorem applied at concrete inputs (an absent
status and the "garbage" status). -/
theorem C1_amended_witness :
    (normalizeItem "K" emptyRaw none).Transfer_Status = some "Not Start"
      ∧ (normalizeItem "K" garbageRaw none).Transfer_Status = some "garbage" :=
  ⟨(C1_amended "K" emptyRaw none).1 (Or.inl rfl),
   (C1_amended "K" garbageRaw none).2 "garbage" rfl (by decide)⟩

/-- C2: for every raw record the normalized `Value` equals
`Standard_Price * Total_Qty` under the coercions (missing or non-numeric
fields coerce to 0); the raw `Value` field is never read; and the
spec example with Standard_Price "12.5" and Total_Qty "4" yields standardPrice 12.5,
totalQty 4, value 50. -/
theorem C2_value_recomputed :
    (∀ (key : String) (item : RawRecord) (u : Option String),
        (normalizeItem key item u).Value =
          (normalizeItem key item u).Standard_Price
            * (((normalizeItem key item u).Total_Qty : Int) : Rat))
      ∧ (∀ (key : String) (item : RawRecord) (u v : Option String),
          normalizeItem key { item with Value := v } u = normalizeItem key item u)
      ∧ (normalizeItem "K" priceQtyRaw none).Standard_Price = 25 / 2
      ∧ (normalizeItem "K" priceQtyRaw none).Total_Qty = 4
      ∧ (normalizeItem "K" priceQtyRaw none).Value = 50 := by
  refine ⟨fun key item u => rfl, fun key item u v => rfl, ?_, rfl, ?_⟩
  · have h : (normalizeItem "K" priceQtyRaw none).Standard_Price
        = ((12 : Nat) : Rat) + ((5 : Nat) : Rat) / (10 : Rat) ^ (1 : Nat) := rfl
    rw [h]
    norm_num
  · have h : (normalizeItem "K" priceQtyRaw none).Value
        = (((12 : Nat) : Rat) + ((5 : Nat) : Rat) / (10 : Rat) ^ (1 : Nat))
            * (((4 : Nat) : Int) : Rat) := rfl
    rw [h]
    push_cast
    norm_num

/-- C3: `updatePlannedStart` resolves `true` on a successful write and
`false` on any transport failure, never throwing (it is a total function
into `Bool`), and it is symmetric with the other three mutation methods. -/
theorem C3_updatePlannedStart :
    updatePlannedStartResult WriteResult.success = true
      ∧ (∀ msg, updatePlannedStartResult (WriteResult.failure msg) = false)
      ∧ (∀ r, updatePlannedStartResult r = updateStatusResult r
          ∧ updatePlannedStartResult r = updateExpectedCompletionResult r
          ∧ updatePlannedStartResult r = updateNotToTransferDetailsResult r) := by
  refine ⟨rfl, fun msg => rfl, fun r => ?_⟩
  cases r <;> exact ⟨rfl, rfl, rfl⟩

/-- C7: every mutation performs exactly one adapter call; `updateStatus`
writes `Transfer_Status` together with `Status_UpdatedAt` (valued at the
current time) in that one call; `updateExpectedCompletion` writes only
`Expected_Completion`; `updateNotToTransferDetails` writes
`NotToTransferReason` and `Brand` together in the one call; and across all
mutations `Status_UpdatedAt` is written exactly when `Transfer_Status`
is. -/
theorem C7_mutation_frame :
    (∀ m : Mutation, (mutationCalls m).length = 1
        ∧ (("Status_UpdatedAt" ∈ mutationFields m) ↔ ("Transfer_Status" ∈ mutationFields m)))
      ∧ (∀ id newStatus now,
          mutationFields (.status id newStatus now) = ["Transfer_Status", "Status_UpdatedAt"]
            ∧ (mutationCalls (.status id newStatus now)).flatten.map (fun w => w.value)
                = [some newStatus, some now])
      ∧ (∀ id dateISO, mutationFields (.expectedCompletion id dateISO) = ["Expected_Completion"])
      ∧ (∀ id reason brand,
          mutationFields (.notToTransferDetails id reason brand)
            = ["NotToTransferReason", "Brand"]
            ∧ (mutationCalls (.notToTransferDetails id reason brand)).length = 1) := by
  refine ⟨fun m => ?_, fun id newStatus now => ⟨rfl, rfl⟩, fun id dateISO => rfl,
    fun id reason brand => ⟨rfl, rfl⟩⟩
  cases m <;> simp [mutationCalls, mutationFields]

/-- C10: the kanban rollup predicate of SummaryCards and the "kanban"
list-filter predicate disagree: an item flagged "Y" is counted by the
rollup (`kanbanParts` = 1) but excluded by the kanban filter (empty
filtered list), so the two views can disagree on the same snapshot. -/
theorem C10_kanban_predicates_differ :
    isKanban itemY = true
      ∧ applyKanbanFilter KanbanFilter.kanban [itemY] = []
      ∧ kanbanParts [itemY] = 1 := by
  decide

/-- The remainingAfter column of the decline loop and of the trajectory
loop coincide. -/
lemma trajectoryLoop_snd_eq_declineLoop_snd :
    ∀ (b : Int) (cs : List Int),
      (trajectoryLoop b cs).map Prod.snd = (declineLoop b cs).map Prod.snd := by
  intro b cs
  induction cs generalizing b with
  | nil => rfl
  | cons c cs ih => simp [trajectoryLoop, declineLoop, ih]

/-- Every remainingAfter value is clamped at 0. -/
lemma declineLoop_snd_nonneg :
    ∀ (b : Int) (cs : List Int), ∀ x ∈ (declineLoop b cs).map Prod.snd, 0 ≤ x := by
  intro b cs
  induction cs generalizing b with
  | nil => simp [declineLoop]
  | cons c cs ih =>
    intro x hx
    simp only [declineLoop, List.map_cons, List.mem_cons] at hx
    rcases hx with rfl | hx
    · exact le_max_right _ _
    · exact ih _ x hx

/-- With a non-negative baseline and non-negative per-month counts, the
remainingAfter sequence prefixed by the baseline is non-increasing. -/
lemma declineLoop_chain (b : Int) (cs : List Int) (hb : 0 ≤ b)
    (hcs : ∀ c ∈ cs, 0 ≤ c) :
    List.Chain' (fun x y : Int => y ≤ x) (b :: (declineLoop b cs).map Prod.snd) := by
  induction cs generalizing b with
  | nil => simp [declineLoop]
  | cons c cs ih =>
    have hc : 0 ≤ c := hcs c (List.mem_cons_self c cs)
    have hstep : max (b - c) 0 ≤ b := by omega
    simp only [declineLoop, List.map_cons, List.chain'_cons]
    exact ⟨hstep, ih _ (le_max_right _ _) (fun d hd => hcs d (List.mem_cons_of_mem c hd))⟩

/-- The decline loop emits one row per month bucket. -/
lemma declineLoop_length :
    ∀ (b : Int) (cs : List Int), (declineLoop b cs).length = cs.length := by
  intro b cs
  induction cs generalizing b with
  | nil => rfl
  | cons c cs ih => simp [declineLoop, ih]

/-- The trajectory loop emits one row per schedule bucket. -/
lemma trajectoryLoop_length :
    ∀ (b : Int) (cs : List Int), (trajectoryLoop b cs).length = cs.length := by
  intro b cs
  induction cs generalizing b with
  | nil => rfl
  | cons c cs ih => simp [trajectoryLoop, ih]

/-- C4: for a non-negative baseline and non-negative monthly counts, the
remainingAfter sequence of the decline loop follows the clamped recurrence
(by definition), is monotonically non-increasing from the baseline, never
negative, is shared by both trajectory derivations, and satisfies the
example of the spec: baseline 10 with completions [3, 4, 10] yields
[7, 3, 0]. -/
theorem C4_decline_trajectory (baseline : Int) (completions : List Int)
    (hb : 0 ≤ baseline) (hc : ∀ c ∈ completions, 0 ≤ c) :
    List.Chain' (fun x y : Int => y ≤ x)
        (baseline :: (declineLoop baseline completions).map Prod.snd)
      ∧ (∀ x ∈ (declineLoop baseline completions).map Prod.snd, 0 ≤ x)
      ∧ (trajectoryLoop baseline completions).map Prod.snd
          = (declineLoop baseline completions).map Prod.snd
      ∧ (declineLoop 10 [3, 4, 10]).map Prod.snd = [7, 3, 0] := by
  refine ⟨declineLoop_chain baseline completions hb hc,
    declineLoop_snd_nonneg baseline completions,
    trajectoryLoop_snd_eq_declineLoop_snd baseline completions, by decide⟩

/-- C4 witness: the theorem applied to the example input of the spec. -/
theorem C4_decline_trajectory_witness :
    (0 ≤ (10 : Int)) ∧ (declineLoop 10 [3, 4, 10]).map Prod.snd = [7, 3, 0] :=
  ⟨by decide, (C4_decline_trajectory 10 [3, 4, 10] (by decide) (by decide)).2.2.2⟩

/-- C5 counterexample: `completedDecline` has no synthetic fallback
bucket — on a collection with no parseable month (here one item with an
unparseable date) it returns the empty sequence, while
`plannedStartTrajectory` on the same dates returns the single synthetic
current-month row; this refutes the claim that each decline derivation is
never empty. -/
theorem C5_counterexample :
    completedDecline 5 [none] = [] ∧ plannedStartTrajectory 5 [none] 0 = [(0, 5)] := by
  constructor
  · rfl
  · rfl

/-- C5 (amended): the length of `plannedStartTrajectory` equals the number of
populated month buckets, falling back to exactly one synthetic
current-month bucket when none exists, so it is never empty; but
the length of `completedDecline` always equals the number of populated month
buckets with no synthetic fallback, so it is empty whenever no month
bucket exists. -/
theorem C5_trajectory_lengths (baseline currentCount : Int)
    (dates : List (Option Int)) (nowKey : Int) :
    (completedDecline baseline dates).length = (monthBuckets dates).length
      ∧ (plannedStartTrajectory currentCount dates nowKey).length
          = (if (monthBuckets dates).isEmpty then 1 else (monthBuckets dates).length)
      ∧ plannedStartTrajectory currentCount dates nowKey ≠ [] := by
  refine ⟨?_, ?_, ?_⟩
  · simp [completedDecline, declineLoop_length]
  · by_cases h : (monthBuckets dates).isEmpty <;>
      simp [plannedStartTrajectory, h, trajectoryLoop_length]
  · intro hnil
    have hlen := congrArg List.length hnil
    rw [List.length_nil] at hlen
    by_cases h : (monthBuckets dates).isEmpty
    · rw [show plannedStartTrajectory currentCount dates nowKey
          = trajectoryLoop currentCount
              ((if (monthBuckets dates).isEmpty then [(nowKey, 0)]
                else monthBuckets dates).map (fun entry => (entry.2 : Int))) from rfl,
        trajectoryLoop_length] at hlen
      simp [h] at hlen
    · rw [show plannedStartTrajectory currentCount dates nowKey
          = trajectoryLoop currentCount
              ((if (monthBuckets dates).isEmpty then [(nowKey, 0)]
                else monthBuckets dates).map (fun entry => (entry.2 : Int))) from rfl,
        trajectoryLoop_length] at hlen
      simp [h] at hlen
      exact h (List.isEmpty_iff.mpr hlen)

/-- The length of a list is the sum of the constant function 1 over it. -/
lemma length_eq_sum_ones (l : List BomItem) :
    l.length = (l.map (fun _ => (1 : Nat))).sum := by
  induction l with
  | nil => rfl
  | cons i l ih =>
    rw [List.length_cons, List.map_cons, List.sum_cons, ih]
    omega

/-- Summing any item quantity over the four `getStatus` buckets recovers
the sum over the whole collection: `getStatus` is a total function into
the four bucket keys, so the buckets cover every item exactly once. -/
lemma bucket_sum {M : Type} [AddCommMonoid M] (g : BomItem → M) (items : List BomItem) :
    (cardStatuses.map
        (fun st => ((items.filter (fun i => decide (getStatus i = st))).map g).sum)).sum
      = (items.map g).sum := by
  induction items with
  | nil => simp
  | cons i items ih =>
    have hsplit : ∀ st : CardStatus,
        ((List.filter (fun j => decide (getStatus j = st)) (i :: items)).map g).sum
          = (if getStatus i = st then g i else 0)
              + ((items.filter (fun j => decide (getStatus j = st))).map g).sum := by
      intro st
      by_cases h : getStatus i = st
      · rw [show List.filter (fun j => decide (getStatus j = st)) (i :: items)
              = i :: List.filter (fun j => decide (getStatus j = st)) items from
            List.filter_cons_of_pos (decide_eq_true h),
          List.map_cons, List.sum_cons, if_pos h]
      · rw [show List.filter (fun j => decide (getStatus j = st)) (i :: items)
              = List.filter (fun j => decide (getStatus j = st)) items from
            List.filter_cons_of_neg (fun hc => h (of_decide_eq_true hc)),
          if_neg h, zero_add]
    simp only [cardStatuses, List.map_cons, List.map_nil, List.sum_cons, List.sum_nil] at ih ⊢
    rw [hsplit, hsplit, hsplit, hsplit]
    rw [← ih]
    cases h : getStatus i <;> simp only [h, reduceIte] <;> abel_nf

/-- A defaulted status string matches at most one of the four exact
dashboard bucket labels. -/
lemma four_labels_once (s : String) :
    (if s = "Not to Transfer" then (1 : Nat) else 0) + (if s = "Not Start" then 1 else 0)
        + (if s = "In Progress" then 1 else 0) + (if s = "Finished" then 1 else 0) ≤ 1 := by
  by_cases h1 : s = "Not to Transfer"
  · subst h1; decide
  · by_cases h2 : s = "Not Start"
    · subst h2; decide
    · by_cases h3 : s = "In Progress"
      · subst h3; decide
      · by_cases h4 : s = "Finished"
        · subst h4; decide
        · simp [h1, h2, h3, h4]

/-- Unfolding one item out of a dashboard status-group count. -/
lemma countWithStatus_cons (i : BomItem) (items : List BomItem) (s : String) :
    countWithStatus (i :: items) s
      = (if statusOrDefault i = s then 1 else 0) + countWithStatus items s := by
  by_cases h : statusOrDefault i = s <;>
    (simp [countWithStatus, List.filter_cons, h]; try omega)

/-- The four-group dashboard baseline never exceeds the collection size
(equality can fail, since a status outside the four labels is omitted). -/
lemma totalPartsBaseline_le (items : List BomItem) :
    totalPartsBaseline items ≤ items.length := by
  induction items with
  | nil => simp [totalPartsBaseline, countWithStatus]
  | cons i items ih =>
    have hone := four_labels_once (statusOrDefault i)
    simp only [totalPartsBaseline, countWithStatus_cons, List.length_cons] at ih ⊢
    omega

/-- C6 counterexample: an item whose status is "Temporary Usage" is not
placed in a Temporary Usage bucket — the `getStatus` of SummaryCards sends
it to the "Not Start" bucket, and the four dashboard status filters omit it
entirely, so the dashboard bucket counts sum to 0 while the collection
has 1 item; this refutes the claimed five-bucket partition. -/
theorem C6_counterexample :
    getStatus tuItem = CardStatus.notStart
      ∧ totalPartsBaseline [tuItem] = 0
      ∧ [tuItem].length = 1 := by
  refine ⟨by decide, by decide, rfl⟩

/-- C6 (amended): the SummaryCards rollup partitions every item into exactly
one of its four bucket keys (Not Start, In Progress, Finished, Not to
Transfer — there is no Temporary Usage key, such items land in Not Start),
and the per-bucket counts, value totals and quantity totals sum to the
overall totals; the four dashboard status groups, by contrast, omit any
item whose defaulted status is outside the four exact labels, so their
combined size is only bounded by (not always equal to) the collection
size. -/
theorem C6_status_partition (items : List BomItem) :
    (cardStatuses.map (fun st => statusCount items st)).sum = items.length
      ∧ (cardStatuses.map (fun st => statusValue items st)).sum
          = (items.map (fun i => i.Value)).sum
      ∧ (cardStatuses.map (fun st => statusQty items st)).sum
          = (items.map (fun i => i.Total_Qty)).sum
      ∧ totalPartsBaseline items ≤ items.length := by
  refine ⟨?_, ?_, ?_, totalPartsBaseline_le items⟩
  · have hfun : (fun st => statusCount items st)
        = (fun st => ((items.filter (fun i => decide (getStatus i = st))).map
            (fun _ => (1 : Nat))).sum) :=
      funext (fun st => length_eq_sum_ones _)
    rw [hfun, bucket_sum (fun _ => (1 : Nat)) items]
    exact (length_eq_sum_ones items).symm
  · exact bucket_sum (fun i => i.Value) items
  · exact bucket_sum (fun i => i.Total_Qty) items

/-- In ascending mode the comparator order is the key order. -/
lemma sortLe_asc_iff (dateMs : String → Int) (field : SortField) (a b : BomItem) :
    sortLe dateMs field SortDirection.asc a b
      ↔ sortKeyOf dateMs field a ≤ sortKeyOf dateMs field b := by
  show (if sortKeyOf dateMs field a < sortKeyOf dateMs field b then (-1 : Int)
        else if sortKeyOf dateMs field a > sortKeyOf dateMs field b then 1 else 0) ≤ 0 ↔ _
  rcases lt_trichotomy (sortKeyOf dateMs field a) (sortKeyOf dateMs field b) with h | h | h
  · rw [if_pos h]
    exact ⟨fun _ => le_of_lt h, fun _ => by norm_num⟩
  · rw [if_neg (by rw [h]; exact lt_irrefl _), if_neg (by rw [h]; exact lt_irrefl _)]
    exact ⟨fun _ => le_of_eq h, fun _ => le_refl 0⟩
  · rw [if_neg (not_lt_of_gt h), if_pos h]
    exact ⟨fun hc => absurd hc (by norm_num), fun hc => absurd hc (not_le.mpr h)⟩

/-- In descending mode the comparator order is the reversed key order. -/
lemma sortLe_desc_iff (dateMs : String → Int) (field : SortField) (a b : BomItem) :
    sortLe dateMs field SortDirection.desc a b
      ↔ sortKeyOf dateMs field b ≤ sortKeyOf dateMs field a := by
  show (if sortKeyOf dateMs field a > sortKeyOf dateMs field b then (-1 : Int)
        else if sortKeyOf dateMs field a < sortKeyOf dateMs field b then 1 else 0) ≤ 0 ↔ _
  rcases lt_trichotomy (sortKeyOf dateMs field b) (sortKeyOf dateMs field a) with h | h | h
  · rw [if_pos h]
    exact ⟨fun _ => le_of_lt h, fun _ => by norm_num⟩
  · rw [if_neg (by rw [h]; exact lt_irrefl _), if_neg (by rw [h]; exact lt_irrefl _)]
    exact ⟨fun _ => le_of_eq h, fun _ => le_refl 0⟩
  · rw [if_neg (not_lt_of_gt h), if_pos h]
    exact ⟨fun hc => absurd hc (by norm_num), fun hc => absurd hc (not_le.mpr h)⟩

/-- The comparator order is total. -/
lemma sortLe_total (dateMs : String → Int) (field : SortField) (dir : SortDirection) :
    ∀ a b : BomItem, sortLe dateMs field dir a b ∨ sortLe dateMs field dir b a := by
  intro a b
  cases dir
  · rw [sortLe_asc_iff, sortLe_asc_iff]
    exact le_total _ _
  · rw [sortLe_desc_iff, sortLe_desc_iff]
    exact le_total _ _

/-- The comparator order is transitive. -/
lemma sortLe_trans (dateMs : String → Int) (field : SortField) (dir : SortDirection) :
    ∀ a b c : BomItem, sortLe dateMs field dir a b → sortLe dateMs field dir b c →
      sortLe dateMs field dir a c := by
  intro a b c hab hbc
  cases dir
  · rw [sortLe_asc_iff] at hab hbc ⊢
    exact le_trans hab hbc
  · rw [sortLe_desc_iff] at hab hbc ⊢
    exact le_trans hbc hab

/-- C8: the multi-key sort is stable — on any input whose selected sort
key is equal across all items (under either direction and any of the four
key fields) it returns the list unchanged, and re-running the sort on an
already sorted list changes nothing. -/
theorem C8_sort_stable (dateMs : String → Int) (field : SortField) (dir : SortDirection)
    (items : List BomItem) :
    ((∀ a ∈ items, ∀ b ∈ items,
        sortKeyOf dateMs field a = sortKeyOf dateMs field b) →
      sortBom dateMs field dir items = items)
    ∧ sortBom dateMs field dir (sortBom dateMs field dir items)
        = sortBom dateMs field dir items := by
  constructor
  · intro h
    apply List.Sorted.insertionSort_eq
    apply List.pairwise_of_forall_mem_list
    intro a ha b hb
    cases dir
    · rw [sortLe_asc_iff]
      exact le_of_eq (h a ha b hb)
    · rw [sortLe_desc_iff]
      exact le_of_eq (h b hb a ha)
  · apply List.Sorted.insertionSort_eq
    haveI : IsTotal BomItem (sortLe dateMs field dir) := ⟨sortLe_total dateMs field dir⟩
    haveI : IsTrans BomItem (sortLe dateMs field dir) := ⟨sortLe_trans dateMs field dir⟩
    exact List.sorted_insertionSort _ _

/-- C8 witness: two distinct items with equal `Value` keys stay in input
order under a descending Value sort. -/
theorem C8_sort_stable_witness :
    sortBom (fun _ => 0) SortField.Value SortDirection.desc [itemA, itemB] = [itemA, itemB] :=
  (C8_sort_stable (fun _ => 0) SortField.Value SortDirection.desc [itemA, itemB]).1
    (by intro a ha b hb
        fin_cases ha <;> fin_cases hb <;> rfl)

/-- `startsWithSeq` decides occurrence at the head of the list. -/
lemma startsWithSeq_iff : ∀ (n h : List Char), startsWithSeq n h = true ↔ ∃ s, h = n ++ s := by
  intro n
  induction n with
  | nil =>
    intro h
    simp [startsWithSeq]
  | cons a as ih =>
    intro h
    cases h with
    | nil => simp [startsWithSeq]
    | cons b bs =>
      simp only [startsWithSeq, Bool.and_eq_true, beq_iff_eq, ih, List.cons_append,
        List.cons.injEq]
      constructor
      · rintro ⟨rfl, s, rfl⟩
        exact ⟨s, rfl, rfl⟩
      · rintro ⟨s, rfl, rfl⟩
        exact ⟨rfl, s, rfl⟩

/-- `containsSeq` decides the contiguous-substring relation. -/
lemma containsSeq_iff : ∀ (n h : List Char), containsSeq n h = true ↔ ∃ p s, h = p ++ n ++ s := by
  intro n h
  induction h with
  | nil =>
    constructor
    · intro hn
      have hempty : n = [] := List.isEmpty_iff.mp hn
      exact ⟨[], [], by simp [hempty]⟩
    · rintro ⟨p, s, hps⟩
      have h1 := List.append_eq_nil.mp hps.symm
      have h2 := List.append_eq_nil.mp h1.1
      show n.isEmpty = true
      rw [h2.2]
      rfl
  | cons b bs ih =>
    show (startsWithSeq n (b :: bs) || containsSeq n bs) = true ↔ _
    rw [Bool.or_eq_true, startsWithSeq_iff, ih]
    constructor
    · rintro (⟨s, hs⟩ | ⟨p, s, hs⟩)
      · exact ⟨[], s, by simp [hs]⟩
      · exact ⟨b :: p, s, by simp [hs]⟩
    · rintro ⟨p, s, hps⟩
      cases p with
      | nil =>
        left
        exact ⟨s, by simpa using hps⟩
      | cons x xs =>
        right
        rw [List.cons_append, List.cons_append, List.cons.injEq] at hps
        exact ⟨xs, s, hps.2⟩

/-- C9: the search filter keeps an item exactly when the lowercased query
occurs contiguously in the lowercased material number or the lowercased
description; the empty query leaves the list untouched; and the spec
example (query "cap" over CAP-100 and RES-200) keeps only CAP-100. -/
theorem C9_search_filter (term : String) (items : List BomItem) (i : BomItem) :
    searchFilter "" items = items
      ∧ (i ∈ searchFilter term items ↔
          i ∈ items ∧
            (IsSubstringChars (jsToLower term) (jsToLower i.Component_Material)
              ∨ IsSubstringChars (jsToLower term) (jsToLower i.Description_EN)))
      ∧ searchFilter "cap" [capItem, resItem] = [capItem] := by
  refine ⟨by simp [searchFilter], ?_, rfl⟩
  by_cases hterm : term = ""
  · subst hterm
    rw [searchFilter, if_pos rfl]
    constructor
    · intro hi
      exact ⟨hi, Or.inl ⟨[], jsToLower i.Component_Material, rfl⟩⟩
    · exact fun h => h.1
  · rw [searchFilter, if_neg hterm, List.mem_filter]
    constructor
    · rintro ⟨hi, hm⟩
      refine ⟨hi, ?_⟩
      rw [searchMatches, Bool.or_eq_true] at hm
      rcases hm with hm | hm
      · exact Or.inl ((containsSeq_iff _ _).mp hm)
      · exact Or.inr ((containsSeq_iff _ _).mp hm)
    · rintro ⟨hi, hsub⟩
      refine ⟨hi, ?_⟩
      rw [searchMatches, Bool.or_eq_true]
      rcases hsub with hs | hs
      · exact Or.inl ((containsSeq_iff _ _).mpr hs)
      · exact Or.inr ((containsSeq_iff _ _).mpr hs)

end ChinaTransfer
